import Mathlib

/-!
Verification development for the Schedulyze repository.

The repository contains several near-identical copies of the scheduling
engine.  Three are embedded here, each in its own namespace:

* `SrcApp`    — `src/app.py` (`StudyScheduleOptimizer`): the weighted-blend
  priority scorer, the proportional daily-hour allocator and the
  block-packing day builder (the same code also appears verbatim in
  `src/app_pandas.py` and `src/test_scheduler.py`).
* `SchedApp`  — `src/Schedulyze/app.py` (`StudyScheduler`): the tiered
  urgency scorer and the day loop that tracks a `remaining_hours` map.
* `Api`       — `src/Schedulyze/api.py` (`StudyScheduler` and the
  `/api/generate-schedule` entry point).

Modelling conventions, used uniformly below:
* Python floats are modelled as `ℚ`; all the arithmetic the claims touch
  (`*`, `/`, `round`, `min`, `max`, comparisons) is exact on the small
  decimal values involved.
* Calendar dates are integers (days since an epoch chosen so that day 0 is
  a Monday); `(deadline - today).days` becomes integer subtraction, and
  Python's `date.weekday() < 5` becomes `d.emod 7 < 5`.
* The implicit global clock (`date.today()` / `datetime.now().date()`) is
  an explicit `today : Int` parameter.
* Times of day are minutes; the `"HH:MM"` start-time string is passed
  already parsed, as minutes after midnight.
-/

namespace Schedulyze

/-- Round half to even, the tie-breaking rule of Python's `round`. -/
def roundHalfEven (q : ℚ) : ℤ :=
  let f := ⌊q⌋
  if q - f < 1/2 then f
  else if q - f > 1/2 then f + 1
  else if f % 2 = 0 then f else f + 1

/-- Python's `round(x, 1)`: round to one decimal digit, half to even.
(On the concrete inputs used below the value is never within float error
of a tie, so the binary-float subtleties of CPython's `round` are moot.) -/
def round1 (q : ℚ) : ℚ := (roundHalfEven (10 * q) : ℚ) / 10

namespace SrcApp

/-- A subject record as assembled by the `src/app.py` UI: `name`,
`deadline`, `study_hours` (total hours needed), `difficulty`,
`importance`, plus the `priority_score` key that
`distribute_study_hours` writes into the dict (absent = `none`). -/
structure Subject where
  name : String
  deadline : Int
  study_hours : ℚ
  difficulty : ℚ
  importance : ℚ
  priority_score : Option ℚ := none
deriving Repr, DecidableEq

/-- `StudyScheduleOptimizer.calculate_priority_score` (src/app.py:34). -/
def calculate_priority_score (today : Int) (deadline : Int)
    (difficulty importance : ℚ) : ℚ :=
  let days_until_deadline := deadline - today
  let urgency_factor : ℚ :=
    if days_until_deadline ≤ 0 then 10.0 else 1.0 / (days_until_deadline : ℚ)
  urgency_factor * 0.4 + difficulty / 5.0 * 0.3 + importance / 5.0 * 0.3

/-- Reading `subject['priority_score']` (always present at the use sites,
since the allocator assigns it first). -/
def getScore (s : Subject) : ℚ := s.priority_score.getD 0

/-- Python dict assignment `d[k] = v` on an insertion-ordered assoc list:
an existing key keeps its position, a new key is appended. -/
def dictSet (k : String) (v : ℚ) : List (String × ℚ) → List (String × ℚ)
  | [] => [(k, v)]
  | (k', v') :: rest =>
      if k' = k then (k, v) :: rest else (k', v') :: dictSet k v rest

/-- The distribution loop of `distribute_study_hours` (src/app.py:96-106):
every subject but the last gets `round(score/total * budget, 1)` hours
(subtracted from the running remainder), the last gets the remainder;
each value is then clamped by
`max(0.5, min(hours, remaining + 0.5)) if remaining > 0 else 0`. -/
def distLoop (total_daily_hours total_priority : ℚ) :
    List Subject → ℚ → List (String × ℚ) → List (String × ℚ)
  | [], _, hour_distribution => hour_distribution
  | subject :: rest, remaining_hours, hour_distribution =>
      let hours0 : ℚ :=
        if rest.isEmpty then remaining_hours
        else round1 (getScore subject / total_priority * total_daily_hours)
      let remaining' : ℚ :=
        if rest.isEmpty then remaining_hours else remaining_hours - hours0
      let hours : ℚ :=
        if remaining' > 0 then max 0.5 (min hours0 (remaining' + 0.5)) else 0
      distLoop total_daily_hours total_priority rest remaining'
        (dictSet subject.name hours hour_distribution)

/-- `StudyScheduleOptimizer.distribute_study_hours` (src/app.py:64).
The Python method mutates its argument (it writes `priority_score` into
every caller-supplied subject dict), so the model returns both the
updated subject list and the hour-distribution dict. -/
def distribute_study_hours (today : Int) (subjects : List Subject)
    (total_daily_hours : ℚ) : List Subject × List (String × ℚ) :=
  if subjects.isEmpty then (subjects, [])
  else
    let subjects' := subjects.map fun s =>
      let score := calculate_priority_score today s.deadline s.difficulty s.importance
      { s with priority_score := some score }
    let sorted_subjects :=
      List.insertionSort (fun a b => getScore b ≤ getScore a) subjects'
    let total_priority := (sorted_subjects.map getScore).sum
    (subjects', distLoop total_daily_hours total_priority sorted_subjects
      total_daily_hours [])

/-- One schedule entry of src/app.py (`date`, `start_time`, `end_time`,
`subject`, `type`, `duration`); clock values are minutes after midnight. -/
structure Entry where
  date : Int
  start_time : Nat
  end_time : Nat
  subject : String
  type : String
  duration : Nat
deriving Repr, DecidableEq

/-- The inner `while total_minutes > 0` loop of `_create_daily_schedule`
(src/app.py:190-217): emit a study block of
`min(session_length, total_minutes)`, and a break whenever the same
subject still has minutes left.  `fuel` is the initial `total_minutes`;
since every iteration consumes `min session_length total_minutes ≥ 1`
minutes whenever `session_length ≥ 1`, the fuel never runs out on the
inputs on which the Python loop terminates. -/
def sliceGo (date : Int) (subject : String)
    (session_length break_length : Nat) :
    Nat → Nat → Nat → List Entry × Nat
  | 0, current_time, _ => ([], current_time)
  | _fuel + 1, current_time, 0 => ([], current_time)
  | fuel + 1, current_time, total_minutes + 1 =>
      let tm := total_minutes + 1
      let session_duration := min session_length tm
      let studyE : Entry :=
        ⟨date, current_time, current_time + session_duration, subject,
          "Study", session_duration⟩
      let remaining := tm - session_duration
      if 0 < remaining then
        let breakE : Entry :=
          ⟨date, current_time + session_duration,
            current_time + session_duration + break_length, "Break",
            "Break", break_length⟩
        let p := sliceGo date subject session_length break_length fuel
          (current_time + session_duration + break_length) remaining
        (studyE :: breakE :: p.1, p.2)
      else ([studyE], current_time + session_duration)

/-- The per-subject loop of `_create_daily_schedule` (src/app.py:184-217):
subjects with a positive allocation are sliced into sessions; the running
clock (`current_time`) is threaded across subjects. -/
def dailyGo (date : Int) (session_length break_length : Nat) :
    List (String × ℚ) → Nat → List Entry
  | [], _ => []
  | (subject, hours) :: rest, current_time =>
      if 0 < hours then
        let total_minutes := (⌊hours * 60⌋).toNat
        let p := sliceGo date subject session_length break_length
          total_minutes current_time total_minutes
        p.1 ++ dailyGo date session_length break_length rest p.2
      else dailyGo date session_length break_length rest current_time

/-- `StudyScheduleOptimizer._create_daily_schedule` (src/app.py:156).
`start_minutes` is the parsed `"HH:MM"` start time. -/
def create_daily_schedule (date : Int) (hour_distribution : List (String × ℚ))
    (session_length break_length : Nat) (start_minutes : Nat) : List Entry :=
  dailyGo date session_length break_length hour_distribution start_minutes

/-- `current_date.weekday() < 5` with dates anchored so day 0 is a Monday. -/
def isWeekday (d : Int) : Bool := d.emod 7 < 5

/-- `StudyScheduleOptimizer.generate_schedule` (src/app.py:110): one
distribution is computed up front, then the `while current_date <= max_date`
loop replays it on every weekday of the 31-day window
`start_date .. start_date + 30`. -/
def generate_schedule (today : Int) (subjects : List Subject)
    (start_date : Int) (daily_hours : ℚ)
    (session_length break_length start_minutes : Nat) : List Entry :=
  let hour_distribution := (distribute_study_hours today subjects daily_hours).2
  ((List.range 31).map fun k =>
    let current_date := start_date + (k : Int)
    if isWeekday current_date then
      create_daily_schedule current_date hour_distribution session_length
        break_length start_minutes
    else []).flatten

/-- Total `duration` of the Study entries of one subject. -/
def studyMinutesFor (name : String) (es : List Entry) : Nat :=
  ((es.filter fun e => e.type == "Study" && e.subject == name).map
    Entry.duration).sum

/-- The entries of one calendar day. -/
def entriesOn (d : Int) (es : List Entry) : List Entry :=
  es.filter fun e => e.date == d

/-- Three identical subjects (equal deadlines, difficulty and importance,
hence equal priority scores); used in several concrete runs below. -/
def subsEq3 : List Subject :=
  [⟨"A", 10, 5, 3, 3, none⟩, ⟨"B", 10, 5, 3, 3, none⟩, ⟨"C", 10, 5, 3, 3, none⟩]

/-- Specification predicate: the entry list is a gap-free chain of blocks
on the given date, starting exactly at clock value `current` and ending
exactly at clock value `fin`, with every block's `end_time` equal to its
`start_time` plus its `duration`. -/
def ChainFrom (date : Int) : Nat → List Entry → Nat → Prop
  | current, [], fin => fin = current
  | current, e :: es, fin =>
      e.start_time = current ∧ e.end_time = e.start_time + e.duration ∧
        e.date = date ∧ ChainFrom date e.end_time es fin

end SrcApp

/-- Time-of-day wrap-around at 24 h = 1440 minutes, the effect of Python's
`datetime.combine(date, t) + timedelta(...)` followed by `.time()`. -/
def tmod (x : ℚ) : ℚ := x - 1440 * ⌊x / 1440⌋

namespace SchedApp

/-- A subject record of src/Schedulyze/app.py: `name`, `deadline`,
`hours_needed`, `difficulty`. -/
structure Subject where
  name : String
  deadline : Int
  hours_needed : ℚ
  difficulty : ℚ
deriving Repr, DecidableEq

/-- The settings dict of src/Schedulyze/app.py: session and break lengths
in minutes, `daily_hours`, the schedule's `start_date`, the daily
`start_time` (as minutes after midnight) and the weekend flag. -/
structure Settings where
  session_length : ℚ
  break_length : ℚ
  daily_hours : ℚ
  start_date : Int
  start_minutes : ℚ
  include_weekends : Bool
deriving Repr, DecidableEq

/-- `StudyScheduler.calculate_priority_score` (src/Schedulyze/app.py:67):
the tiered urgency bucket times `1 + difficulty/10 + min(hours/10, 1)`. -/
def calculate_priority_score (today : Int) (subject : Subject) : ℚ :=
  let days_until_deadline := subject.deadline - today
  let urgency_score : ℚ :=
    if days_until_deadline ≤ 0 then 100
    else if days_until_deadline ≤ 1 then 90
    else if days_until_deadline ≤ 3 then 70
    else if days_until_deadline ≤ 7 then 50
    else max 10 (50 - ((days_until_deadline : ℚ) - 7) * 2)
  let difficulty_multiplier := subject.difficulty / 10
  let hours_factor := min (subject.hours_needed / 10) 1
  urgency_score * (1 + difficulty_multiplier + hours_factor)

/-- A schedule entry of src/Schedulyze/app.py; clock values are minutes
after midnight (wrapped at 24 h like Python's `time` values). -/
structure Entry where
  date : Int
  start_time : ℚ
  end_time : ℚ
  subject : String
  duration_minutes : ℚ
  type : String
  priority_score : ℚ
  difficulty : ℚ
deriving Repr, DecidableEq

/-- The dict comprehension
`{subject['name']: subject['hours_needed'] for subject in prioritized_subjects}`
(src/Schedulyze/app.py:116): later duplicates overwrite earlier ones. -/
def initRemaining (subjects : List Subject) : String → ℚ :=
  subjects.foldl
    (fun m s => fun n => if n = s.name then s.hours_needed else m n)
    (fun _ => 0)

/-- The `for subject in prioritized_subjects` body of the day loop
(src/Schedulyze/app.py:137-207).  State: accumulated study minutes of the
day, the next session's start time, the `remaining_hours` map, and the
day's emitted sessions (in order).  A subject with no remaining hours is
skipped; once the day's budget is full the loop `break`s; sessions
shorter than 15 minutes are skipped. -/
def dayLoop (today : Int) (st : Settings) (study_date : Int) :
    List Subject → ℚ → ℚ → (String → ℚ) → List Entry →
      List Entry × (String → ℚ)
  | [], _, _, remaining_hours, daily_sessions =>
      (daily_sessions, remaining_hours)
  | subject :: rest, time_accumulated, session_start_time, remaining_hours,
      daily_sessions =>
      if remaining_hours subject.name ≤ 0 then
        dayLoop today st study_date rest time_accumulated session_start_time
          remaining_hours daily_sessions
      else if st.daily_hours * 60 ≤ time_accumulated then
        (daily_sessions, remaining_hours)
      else
        let session_duration := min st.session_length
          (min (remaining_hours subject.name * 60)
            (st.daily_hours * 60 - time_accumulated))
        if session_duration < 15 then
          dayLoop today st study_date rest time_accumulated
            session_start_time remaining_hours daily_sessions
        else
          let session_end_time := tmod (session_start_time + session_duration)
          let e : Entry :=
            ⟨study_date, session_start_time, session_end_time, subject.name,
              session_duration, "study",
              calculate_priority_score today subject, subject.difficulty⟩
          let daily_sessions' := daily_sessions ++ [e]
          let remaining' : String → ℚ := fun n =>
            if n = subject.name then
              remaining_hours n - session_duration / 60
            else remaining_hours n
          let time_accumulated' := time_accumulated + session_duration
          if time_accumulated' < st.daily_hours * 60 - st.session_length then
            let break_start := session_end_time
            let break_end := tmod (break_start + st.break_length)
            let breakE : Entry :=
              ⟨study_date, break_start, break_end, "Break", st.break_length,
                "break", 0, 0⟩
            dayLoop today st study_date rest
              (time_accumulated' + st.break_length) break_end remaining'
              (daily_sessions' ++ [breakE])
          else
            dayLoop today st study_date rest time_accumulated'
              (tmod (session_end_time + st.break_length)) remaining'
              daily_sessions'

/-- The `for day_offset in range(14)` loop of
`StudyScheduler.generate_optimized_schedule` (src/Schedulyze/app.py:119):
weekend days are skipped when `include_weekends` is off; each scheduled
day starts a fresh day loop at the settings' start time and appends its
sessions to the schedule. -/
def daysGo (today : Int) (subjects : List Subject) (st : Settings) :
    List Nat → (String → ℚ) → List Entry × (String → ℚ)
  | [], remaining_hours => ([], remaining_hours)
  | day_offset :: rest, remaining_hours =>
      let study_date := st.start_date + (day_offset : Int)
      if !st.include_weekends && 5 ≤ study_date.emod 7 then
        daysGo today subjects st rest remaining_hours
      else
        let p := dayLoop today st study_date subjects 0 st.start_minutes
          remaining_hours []
        let q := daysGo today subjects st rest p.2
        (p.1 ++ q.1, q.2)

/-- The priority-sorted subject list (`sorted(subjects,
key=self.calculate_priority_score, reverse=True)`, stable descending). -/
def prioritized (today : Int) (subjects : List Subject) : List Subject :=
  List.insertionSort
    (fun a b => calculate_priority_score today b ≤ calculate_priority_score today a)
    subjects

/-- `StudyScheduler.generate_optimized_schedule` (src/Schedulyze/app.py:98)
together with its internal `remaining_hours` state: the returned pair is
(the flat schedule, the final remaining-hours map). -/
def generate_optimized_schedule_core (today : Int) (subjects : List Subject)
    (st : Settings) : List Entry × (String → ℚ) :=
  let prioritized_subjects := prioritized today subjects
  daysGo today prioritized_subjects st (List.range 14)
    (initRemaining prioritized_subjects)

/-- The schedule actually returned by
`StudyScheduler.generate_optimized_schedule`. -/
def generate_optimized_schedule (today : Int) (subjects : List Subject)
    (st : Settings) : List Entry :=
  (generate_optimized_schedule_core today subjects st).1

/-- Total `duration_minutes` of one subject's study entries. -/
def studyMinutesFor (name : String) (es : List Entry) : ℚ :=
  ((es.filter fun e => e.type == "study" && e.subject == name).map
    Entry.duration_minutes).sum

end SchedApp

namespace Api

/-- The `Subject` pydantic model of src/Schedulyze/api.py (the optional
`description` field is never read by the scheduler and is omitted). -/
structure Subject where
  name : String
  deadline : Int
  hours_needed : ℚ
  difficulty : ℚ
deriving Repr, DecidableEq

/-- The settings of src/Schedulyze/api.py in the form the scheduling loops
consume them once `strptime(settings.start_time, "%H:%M")` has succeeded:
`start_minutes` is the parsed start time in minutes after midnight.  The
wire-level pydantic model, with `start_time` as the raw string, is
`RawScheduleSettings` below; the two are connected by the refinement
theorems about `generate_schedule_api`.  (The `end_time` field is never
read by the scheduler and is omitted.) -/
structure ScheduleSettings where
  session_length : ℚ := 90
  break_length : ℚ := 15
  daily_hours : ℚ := 8
  start_minutes : ℚ := 540
  include_weekends : Bool := true
deriving Repr, DecidableEq

/-- The tiered urgency buckets of
`StudyScheduler.calculate_priority_score` (src/Schedulyze/api.py:44-56). -/
def urgency_score (days_until_deadline : Int) : ℚ :=
  if days_until_deadline ≤ 0 then 100
  else if days_until_deadline ≤ 1 then 90
  else if days_until_deadline ≤ 3 then 70
  else if days_until_deadline ≤ 7 then 50
  else max 10 (50 - ((days_until_deadline : ℚ) - 7) * 2)

/-- `StudyScheduler.calculate_priority_score` (src/Schedulyze/api.py:41). -/
def calculate_priority_score (today : Int) (s : Subject) : ℚ :=
  urgency_score (s.deadline - today) *
    (1 + s.difficulty / 10 + min (s.hours_needed / 10) 1)

/-- A schedule entry of src/Schedulyze/api.py; clock values are minutes
after midnight (`duration_hours` is in hours, as in the source).  The
source renders clocks through `strftime("%H:%M")`, which wraps at
midnight; the wrap is not modelled — the `(date, start_time)` sort key
below coincides with the source's string key whenever a day's sessions
stay within the day, and the claims settled against this namespace do not
depend on entry order. -/
structure Entry where
  date : Int
  start_time : ℚ
  end_time : ℚ
  subject : String
  duration_hours : ℚ
  session_type : String
  priority_score : ℚ
  difficulty : ℚ
deriving Repr, DecidableEq

/-- The `for session in range(sessions_today)` loop
(src/Schedulyze/api.py:121-158), iterated over the list of session
indices: each session studies `min(session_duration_hours,
hours_remaining)` hours and a Break entry follows unless this is the last
planned session or the subject is exhausted. -/
def sessionGo (study_date : Int) (subject_name : String)
    (score difficulty sdh break_length : ℚ) (sessions_today : Nat) :
    List Nat → ℚ → ℚ → List Entry × ℚ
  | [], _, hours_remaining => ([], hours_remaining)
  | session :: restSessions, current_time, hours_remaining =>
      let session_duration := min sdh hours_remaining
      if session_duration ≤ 0 then ([], hours_remaining)
      else
        let end_time := current_time + session_duration * 60
        let e : Entry := ⟨study_date, current_time, end_time, subject_name,
          session_duration, "Study", score, difficulty⟩
        let hours_remaining' := hours_remaining - session_duration
        let current_time' := end_time + break_length
        if session < sessions_today - 1 ∧ hours_remaining' > 0 then
          let breakE : Entry := ⟨study_date, current_time' - break_length,
            current_time', "Break", break_length / 60, "Break", 0, 0⟩
          let p := sessionGo study_date subject_name score difficulty sdh
            break_length sessions_today restSessions current_time'
            hours_remaining'
          (e :: breakE :: p.1, p.2)
        else
          let p := sessionGo study_date subject_name score difficulty sdh
            break_length sessions_today restSessions current_time'
            hours_remaining'
          (e :: p.1, p.2)

/-- The `for day_offset in range(days_available)` loop
(src/Schedulyze/api.py:99-161) for one subject: weekend days are skipped
when `include_weekends` is off (the skip also bypasses the trailing
`break` check, as Python's `continue` does); otherwise up to
`hours_today` are sliced into sessions starting at the settings' start
time, and the loop `break`s once `hours_remaining ≤ 0`. -/
def dayGo (today : Int) (st : ScheduleSettings) (subject_name : String)
    (score difficulty : ℚ) (days_available : Int) :
    List Nat → ℚ → List Entry × ℚ
  | [], hours_remaining => ([], hours_remaining)
  | day_offset :: restDays, hours_remaining =>
      let study_date := today + (day_offset : Int)
      if !st.include_weekends && 5 ≤ study_date.emod 7 then
        dayGo today st subject_name score difficulty days_available restDays
          hours_remaining
      else
        let remaining_days := days_available - (day_offset : Int)
        let hours_today := min
          (hours_remaining / ((max remaining_days 1 : Int) : ℚ))
          (min st.daily_hours hours_remaining)
        let p :=
          if 0 < hours_today then
            let session_duration_hours := st.session_length / 60
            let sessions_today := (⌈hours_today / session_duration_hours⌉).toNat
            sessionGo study_date subject_name score difficulty
              session_duration_hours st.break_length sessions_today
              (List.range sessions_today) st.start_minutes hours_remaining
          else ([], hours_remaining)
        if p.2 ≤ 0 then p
        else
          let q := dayGo today st subject_name score difficulty days_available
            restDays p.2
          (p.1 ++ q.1, q.2)

/-- The outer `for subject in subjects_dict` loop
(src/Schedulyze/api.py:85-161), over subjects already paired with their
priority scores: a subject whose `days_available = (deadline - today) + 1`
is non-positive is skipped entirely (`continue`). -/
def subjGo (today : Int) (st : ScheduleSettings) :
    List (Subject × ℚ) → List Entry
  | [] => []
  | (subject, priority) :: rest =>
      let days_available := (subject.deadline - today) + 1
      if days_available ≤ 0 then subjGo today st rest
      else
        let p := dayGo today st subject.name priority subject.difficulty
          days_available (List.range days_available.toNat)
          subject.hours_needed
        p.1 ++ subjGo today st rest

/-- The final sort key `(x['date'], x['start_time'])`
(src/Schedulyze/api.py:163). -/
def entryLe (a b : Entry) : Prop :=
  a.date < b.date ∨ (a.date = b.date ∧ a.start_time ≤ b.start_time)

instance : DecidableRel entryLe := fun a b => by
  unfold entryLe
  infer_instance

/-- `StudyScheduler.generate_optimized_schedule` (src/Schedulyze/api.py:69):
score every subject, sort by score descending (stable), run the
per-subject loop, and sort the flat result by `(date, start_time)`. -/
def generate_optimized_schedule (today : Int) (subjects : List Subject)
    (st : ScheduleSettings) : List Entry :=
  let subjects_dict := subjects.map fun s =>
    (s, calculate_priority_score today s)
  let sorted_subjects := List.insertionSort
    (fun a b => Prod.snd b ≤ Prod.snd a) subjects_dict
  List.insertionSort entryLe (subjGo today st sorted_subjects)

/-- The `ScheduleSettings` pydantic model of src/Schedulyze/api.py:23 as it
arrives on the wire, with its defaults: `start_time` is the raw string
that `datetime.strptime(settings.start_time, "%H:%M")` parses only once
scheduling reaches src/Schedulyze/api.py:118.  (The `end_time` field is
never read by the scheduler and is omitted.) -/
structure RawScheduleSettings where
  session_length : ℚ := 90
  break_length : ℚ := 15
  daily_hours : ℚ := 8
  start_time : String := "09:00"
  include_weekends : Bool := true
deriving Repr, DecidableEq

/-- Modelled from `datetime.strptime(s, "%H:%M")`
(src/Schedulyze/api.py:118): one or two digits for the hour (0-23), a
colon, one or two digits for the minute (0-59), and nothing else; the
result is the time in minutes after midnight, and `none` models the
`ValueError` Python raises for any other string. -/
def parseHHMM (s : String) : Option ℚ :=
  match s.split (· = ':') with
  | [hs, ms] =>
      if 1 ≤ hs.length ∧ hs.length ≤ 2 ∧ 1 ≤ ms.length ∧ ms.length ≤ 2 then
        match hs.toNat?, ms.toNat? with
        | some hv, some mv =>
            if hv ≤ 23 ∧ mv ≤ 59 then some ((hv : ℚ) * 60 + (mv : ℚ))
            else none
        | _, _ => none
      else none
  | _ => none

/-- The per-subject day loop exactly as the entry point executes it,
exception site included: inside each day block with `hours_today > 0`,
`sessions_today` is computed (src/Schedulyze/api.py:116) and then the raw
`start_time` string is parsed (line 118) — an unparseable string raises
`ValueError` there, at the first such block.  (The source's message also
embeds the offending string and the format; only the fact of the
exception matters here.)  On the error-free path this is `dayGo` at the
parsed start time — see `dayGoE_ok`. -/
def dayGoE (today : Int) (st : RawScheduleSettings) (subject_name : String)
    (score difficulty : ℚ) (days_available : Int) :
    List Nat → ℚ → Except String (List Entry × ℚ)
  | [], hours_remaining => Except.ok ([], hours_remaining)
  | day_offset :: restDays, hours_remaining =>
      let study_date := today + (day_offset : Int)
      if !st.include_weekends && 5 ≤ study_date.emod 7 then
        dayGoE today st subject_name score difficulty days_available restDays
          hours_remaining
      else
        let remaining_days := days_available - (day_offset : Int)
        let hours_today := min
          (hours_remaining / ((max remaining_days 1 : Int) : ℚ))
          (min st.daily_hours hours_remaining)
        let pe :=
          if 0 < hours_today then
            let session_duration_hours := st.session_length / 60
            let sessions_today :=
              (⌈hours_today / session_duration_hours⌉).toNat
            match parseHHMM st.start_time with
            | none => Except.error "time data does not match format"
            | some start_minutes =>
                Except.ok (sessionGo study_date subject_name score difficulty
                  session_duration_hours st.break_length sessions_today
                  (List.range sessions_today) start_minutes hours_remaining)
          else Except.ok ([], hours_remaining)
        match pe with
        | Except.error msg => Except.error msg
        | Except.ok p =>
            if p.2 ≤ 0 then Except.ok p
            else
              match dayGoE today st subject_name score difficulty
                  days_available restDays p.2 with
              | Except.error msg => Except.error msg
              | Except.ok q => Except.ok (p.1 ++ q.1, q.2)

/-- The outer subject loop exactly as the entry point executes it: an
overdue subject is skipped (src/Schedulyze/api.py:92-93) before the
(unused) `max_sessions_per_day` computation
`settings.daily_hours // (settings.session_length / 60)` at line 97,
whose floor division raises `ZeroDivisionError` when
`session_length = 0`.  On the error-free path this is `subjGo` — see
`subjGoE_ok`. -/
def subjGoE (today : Int) (st : RawScheduleSettings) :
    List (Subject × ℚ) → Except String (List Entry)
  | [] => Except.ok []
  | (subject, priority) :: rest =>
      let days_available := (subject.deadline - today) + 1
      if days_available ≤ 0 then subjGoE today st rest
      else if st.session_length = 0 then
        Except.error "float floor division by zero"
      else
        match dayGoE today st subject.name priority subject.difficulty
            days_available (List.range days_available.toNat)
            subject.hours_needed with
        | Except.error msg => Except.error msg
        | Except.ok p =>
            match subjGoE today st rest with
            | Except.error msg => Except.error msg
            | Except.ok es => Except.ok (p.1 ++ es)

/-- The `/api/generate-schedule` entry point (src/Schedulyze/api.py:318):
beyond pydantic type checking it performs no validation of the request;
scheduling runs inside a `try/except` that turns any exception raised
mid-computation into an HTTP 400 whose detail prefixes the exception
text with `Error generating schedule: `. -/
def generate_schedule_api (today : Int) (subjects : List Subject)
    (st : RawScheduleSettings) : Except String (List Entry) :=
  let subjects_dict := subjects.map fun s =>
    (s, calculate_priority_score today s)
  let sorted_subjects := List.insertionSort
    (fun a b => Prod.snd b ≤ Prod.snd a) subjects_dict
  match subjGoE today st sorted_subjects with
  | Except.error msg =>
      Except.error ("Error generating schedule: " ++ msg)
  | Except.ok schedule =>
      Except.ok (List.insertionSort entryLe schedule)

end Api

section SrcAppLemmas

open SrcApp

theorem dictSet_forall {P : String × ℚ → Prop} (k : String) (v : ℚ)
    (d : List (String × ℚ)) (hd : ∀ p ∈ d, P p) (hv : P (k, v)) :
    ∀ p ∈ dictSet k v d, P p := by
  induction d with
  | nil => simpa [dictSet] using hv
  | cons q rest ih =>
      obtain ⟨k', v'⟩ := q
      have hq : P (k', v') := hd _ (by simp)
      have hrest : ∀ p ∈ rest, P p := fun p hp => hd p (by simp [hp])
      simp only [dictSet]
      split
      · intro p hp
        rcases List.mem_cons.mp hp with h | h
        · exact h ▸ hv
        · exact hrest _ h
      · intro p hp
        rcases List.mem_cons.mp hp with h | h
        · exact h ▸ hq
        · exact ih hrest _ h

theorem clampValue_nonneg (r h0 : ℚ) :
    (0 : ℚ) ≤ if r > 0 then max 0.5 (min h0 (r + 0.5)) else 0 := by
  split
  · exact le_trans (by norm_num) (le_max_left _ _)
  · exact le_refl 0

theorem distLoop_nonneg (T tp : ℚ) :
    ∀ (l : List Subject) (rem : ℚ) (d : List (String × ℚ)),
      (∀ p ∈ d, 0 ≤ p.2) → ∀ p ∈ distLoop T tp l rem d, 0 ≤ p.2 := by
  intro l
  induction l with
  | nil => intro rem d hd; simpa [distLoop] using hd
  | cons s rest ih =>
      intro rem d hd
      simp only [distLoop]
      apply ih
      exact dictSet_forall _ _ _ hd (clampValue_nonneg _ _)

theorem chainFrom_blocks {date : Int} :
    ∀ {es : List Entry} {current fin : Nat},
      ChainFrom date current es fin →
        ∀ e ∈ es, e.end_time = e.start_time + e.duration ∧ e.date = date := by
  intro es
  induction es with
  | nil => intro current fin _ e he; cases he
  | cons a as ih =>
      intro current fin h e he
      obtain ⟨_h1, h2, h3, h4⟩ := h
      rcases List.mem_cons.mp he with rfl | he
      · exact ⟨h2, h3⟩
      · exact ih h4 e he

theorem chainFrom_head {date : Int} {es : List Entry} {current fin : Nat}
    (h : ChainFrom date current es fin) :
    ∀ e ∈ es.head?, e.start_time = current := by
  cases es with
  | nil => intro e he; cases he
  | cons a as =>
      intro e he
      have hae : a = e := by simpa using he
      exact hae ▸ h.1

theorem chainFrom_chain {date : Int} :
    ∀ {es : List Entry} {current fin : Nat},
      ChainFrom date current es fin →
        List.Chain' (fun a b => b.start_time = a.end_time) es := by
  intro es
  induction es with
  | nil => intro _ _ _; exact List.chain'_nil
  | cons a as ih =>
      intro current fin h
      obtain ⟨_h1, _h2, _h3, h4⟩ := h
      rw [List.chain'_cons']
      exact ⟨chainFrom_head h4, ih h4⟩

theorem chainFrom_mono {date : Int} :
    ∀ {es : List Entry} {current fin : Nat},
      ChainFrom date current es fin →
        List.Chain' (fun a b => a.start_time ≤ b.start_time) es := by
  intro es
  induction es with
  | nil => intro _ _ _; exact List.chain'_nil
  | cons a as ih =>
      intro current fin h
      obtain ⟨_h1, h2, _h3, h4⟩ := h
      rw [List.chain'_cons']
      refine ⟨fun y hy => ?_, ih h4⟩
      rw [chainFrom_head h4 y hy, h2]
      exact Nat.le_add_right _ _

theorem chainFrom_append {date : Int} :
    ∀ {l1 l2 : List Entry} {c m f : Nat},
      ChainFrom date c l1 m → ChainFrom date m l2 f →
        ChainFrom date c (l1 ++ l2) f := by
  intro l1
  induction l1 with
  | nil =>
      intro l2 c m f h1 h2
      have hmc : m = c := h1
      rw [List.nil_append]
      exact hmc ▸ h2
  | cons a as ih =>
      intro l2 c m f h1 h2
      obtain ⟨g1, g2, g3, g4⟩ := h1
      exact ⟨g1, g2, g3, ih g4 h2⟩

theorem sliceGo_chainFrom (date : Int) (name : String) (sess brk : Nat) :
    ∀ (fuel current total : Nat),
      ChainFrom date current
        (sliceGo date name sess brk fuel current total).1
        (sliceGo date name sess brk fuel current total).2 := by
  intro fuel
  induction fuel with
  | zero => intro current total; exact rfl
  | succ fuel ih =>
      intro current total
      cases total with
      | zero => exact rfl
      | succ t =>
          rw [sliceGo]
          dsimp only
          split
          · exact ⟨rfl, rfl, rfl, rfl, rfl, rfl, ih _ _⟩
          · exact ⟨rfl, rfl, rfl, rfl⟩

theorem dailyGo_chainFrom (date : Int) (sess brk : Nat) :
    ∀ (dist : List (String × ℚ)) (current : Nat),
      ∃ fin, ChainFrom date current (dailyGo date sess brk dist current) fin := by
  intro dist
  induction dist with
  | nil => intro current; exact ⟨current, rfl⟩
  | cons p rest ih =>
      intro current
      obtain ⟨name, hours⟩ := p
      rw [dailyGo]
      dsimp only
      split
      · obtain ⟨fin, hfin⟩ := ih (sliceGo date name sess brk
          (⌊hours * 60⌋).toNat current (⌊hours * 60⌋).toNat).2
        exact ⟨fin, chainFrom_append (sliceGo_chainFrom date name sess brk _ _ _) hfin⟩
      · exact ih current

theorem create_daily_schedule_chainFrom (date : Int)
    (dist : List (String × ℚ)) (sess brk start_minutes : Nat) :
    ∃ fin, ChainFrom date start_minutes
      (create_daily_schedule date dist sess brk start_minutes) fin :=
  dailyGo_chainFrom date sess brk dist start_minutes

theorem entriesOn_append (d : Int) (l1 l2 : List Entry) :
    entriesOn d (l1 ++ l2) = entriesOn d l1 ++ entriesOn d l2 :=
  List.filter_append _ _

theorem entriesOn_eq_self {d : Int} {es : List Entry}
    (h : ∀ e ∈ es, e.date = d) : entriesOn d es = es :=
  List.filter_eq_self.mpr fun e he => by simp [h e he]

theorem entriesOn_eq_nil {d : Int} {es : List Entry}
    (h : ∀ e ∈ es, e.date ≠ d) : entriesOn d es = [] := by
  rw [entriesOn, List.filter_eq_nil_iff]
  intro e he
  simp [h e he]

theorem entriesOn_flatten_map (start_date : Int) (f : Nat → List Entry)
    (hf : ∀ j, ∀ e ∈ f j, e.date = start_date + (j : Int)) :
    ∀ (l : List Nat), l.Nodup → ∀ k ∈ l,
      entriesOn (start_date + (k : Int)) ((l.map f).flatten) = f k := by
  intro l
  induction l with
  | nil => intro _ k hk; cases hk
  | cons j rest ih =>
      intro hnd k hk
      rw [List.map_cons, List.flatten_cons, entriesOn_append]
      rcases List.mem_cons.mp hk with rfl | hk
      · rw [entriesOn_eq_self (hf k)]
        have hrest : entriesOn (start_date + (k : Int)) ((rest.map f).flatten)
            = [] := by
          apply entriesOn_eq_nil
          intro e he
          obtain ⟨es, hes, he2⟩ := List.mem_flatten.mp he
          obtain ⟨j', hj', rfl⟩ := List.mem_map.mp hes
          rw [hf j' e he2]
          intro hcontra
          have hj'k : j' = k := by exact_mod_cast add_left_cancel hcontra
          exact (List.nodup_cons.mp hnd).1 (hj'k ▸ hj')
        rw [hrest, List.append_nil]
      · have hj : j ≠ k := fun hjk => (List.nodup_cons.mp hnd).1 (hjk ▸ hk)
        have hnil : entriesOn (start_date + (k : Int)) (f j) = [] := by
          apply entriesOn_eq_nil
          intro e he
          rw [hf j e he]
          intro hc
          exact hj (by exact_mod_cast add_left_cancel hc)
        rw [hnil, List.nil_append]
        exact ih (List.nodup_cons.mp hnd).2 k hk

theorem sliceGo_study_break_chain (date : Int) (name : String)
    (sess brk : Nat) :
    ∀ (fuel current total : Nat),
      List.Chain' (fun a b => a.type = "Study" →
          b.type = "Break" ∧ b.duration = brk ∧ b.start_time = a.end_time)
        (sliceGo date name sess brk fuel current total).1 := by
  intro fuel
  induction fuel with
  | zero => intro current total; exact List.chain'_nil
  | succ fuel ih =>
      intro current total
      cases total with
      | zero => exact List.chain'_nil
      | succ t =>
          rw [sliceGo]
          dsimp only
          split
          · rw [List.chain'_cons, List.chain'_cons']
            refine ⟨fun _ => ⟨rfl, rfl, rfl⟩, fun y hy hcontra => ?_, ih _ _⟩
            simp at hcontra
          · exact List.chain'_singleton _

end SrcAppLemmas

section SchedAppLemmas

open SchedApp

theorem min_zero_le_trans {a b c : ℚ} (h1 : min a 0 ≤ b) (h2 : min b 0 ≤ c) :
    min a 0 ≤ c :=
  le_trans (le_min h1 (min_le_right a 0)) h2

theorem schedStudy_append (name : String) (l1 l2 : List Entry) :
    studyMinutesFor name (l1 ++ l2) =
      studyMinutesFor name l1 + studyMinutesFor name l2 := by
  simp [studyMinutesFor, List.filter_append]

theorem schedStudy_snoc (name : String) (acc : List Entry) (e : Entry) :
    studyMinutesFor name (acc ++ [e]) =
      studyMinutesFor name acc +
        (if e.type == "study" && e.subject == name then e.duration_minutes
         else 0) := by
  rw [schedStudy_append]
  congr 1
  simp only [studyMinutesFor, List.filter_cons, List.filter_nil]
  split
  · simp_all
  · simp_all

theorem dayLoop_conserve (today : Int) (st : Settings) (d : Int) :
    ∀ (subs : List Subject) (tAcc sStart : ℚ) (rem : String → ℚ)
      (acc : List Entry) (n : String),
      (dayLoop today st d subs tAcc sStart rem acc).2 n ≤ rem n ∧
        min (rem n) 0 ≤ (dayLoop today st d subs tAcc sStart rem acc).2 n ∧
        studyMinutesFor n (dayLoop today st d subs tAcc sStart rem acc).1 =
          studyMinutesFor n acc +
            60 * (rem n - (dayLoop today st d subs tAcc sStart rem acc).2 n) := by
  intro subs
  induction subs with
  | nil =>
      intro tAcc sStart rem acc n
      rw [dayLoop]
      refine ⟨le_refl _, min_le_left _ _, ?_⟩
      rw [sub_self, mul_zero, add_zero]
  | cons s rest ih =>
      intro tAcc sStart rem acc n
      rw [dayLoop]
      split
      · exact ih _ _ _ _ _
      · next hrem =>
          split
          · refine ⟨le_refl _, min_le_left _ _, ?_⟩
            rw [sub_self, mul_zero, add_zero]
          · next hbudget =>
              dsimp only
              split
              · exact ih _ _ _ _ _
              · next hdur =>
                  have hrempos : 0 < rem s.name := lt_of_not_ge hrem
                  have hdur15 : (15 : ℚ) ≤ min st.session_length
                      (min (rem s.name * 60) (st.daily_hours * 60 - tAcc)) :=
                    le_of_not_lt hdur
                  have hdurle : min st.session_length
                      (min (rem s.name * 60) (st.daily_hours * 60 - tAcc)) ≤
                        rem s.name * 60 :=
                    le_trans (min_le_right _ _) (min_le_left _ _)
                  set dur := min st.session_length
                    (min (rem s.name * 60) (st.daily_hours * 60 - tAcc))
                    with hdurdef
                  have hdpos : (0 : ℚ) < dur :=
                    lt_of_lt_of_le (by norm_num) hdur15
                  set sEnd := tmod (sStart + dur) with hsEnddef
                  set e : Entry := ⟨d, sStart, sEnd, s.name, dur, "study",
                    calculate_priority_score today s, s.difficulty⟩ with hedef
                  set rem' : String → ℚ := fun m =>
                    if m = s.name then rem m - dur / 60 else rem m
                    with hrem'def
                  set bEnd := tmod (sEnd + st.break_length) with hbEnddef
                  have hrn : rem' n = if n = s.name then rem n - dur / 60
                      else rem n := rfl
                  have hdiv : dur / 60 ≤ rem s.name := by
                    rw [div_le_iff₀ (by norm_num : (0:ℚ) < 60)]
                    linarith [hdurle]
                  have hrle : rem' n ≤ rem n := by
                    rw [hrn]
                    split
                    · have : (0 : ℚ) < dur / 60 := by positivity
                      linarith
                    · exact le_refl _
                  have hrlow : min (rem n) 0 ≤ rem' n := by
                    rw [hrn]
                    split
                    · next hns =>
                        rw [hns]
                        exact le_trans (min_le_right _ _) (by linarith)
                    · exact min_le_left _ _
                  have hestudy : ∀ acc2 : List Entry,
                      studyMinutesFor n (acc2 ++ [e]) = studyMinutesFor n acc2
                        + (if n = s.name then dur else 0) := by
                    intro acc2
                    by_cases hns : n = s.name
                    · simp [schedStudy_snoc, hedef, hns]
                    · simp [schedStudy_snoc, hedef, hns, Ne.symm hns]
                  set brkE : Entry := ⟨d, sEnd, bEnd, "Break",
                    st.break_length, "break", 0, 0⟩ with hbrkdef
                  have hbstudy : ∀ acc2 : List Entry,
                      studyMinutesFor n (acc2 ++ [brkE]) =
                        studyMinutesFor n acc2 := by
                    intro acc2
                    rw [schedStudy_snoc, hbrkdef]
                    rw [if_neg (by simp), add_zero]
                  have hkey : ∀ fin : ℚ, fin ≤ rem' n →
                      60 * (rem' n - fin) + (if n = s.name then dur else 0) =
                        60 * (rem n - fin) := by
                    intro fin _
                    rw [hrn]
                    by_cases hns : n = s.name
                    · rw [if_pos hns, if_pos hns]
                      field_simp
                      ring
                    · rw [if_neg hns, if_neg hns, add_zero]
                  split
                  · -- a Break entry follows the session
                    obtain ⟨ih1, ih2, ih3⟩ := ih
                      (tAcc + dur + st.break_length) bEnd rem'
                      ((acc ++ [e]) ++ [brkE]) n
                    refine ⟨le_trans ih1 hrle,
                      min_zero_le_trans hrlow ih2,
                      ?_⟩
                    rw [ih3, hbstudy, hestudy]
                    have := hkey ((dayLoop today st d rest
                      (tAcc + dur + st.break_length) bEnd rem'
                      ((acc ++ [e]) ++ [brkE])).2 n) ih1
                    linarith [this]
                  · -- no Break entry
                    obtain ⟨ih1, ih2, ih3⟩ := ih
                      (tAcc + dur) bEnd rem' (acc ++ [e]) n
                    refine ⟨le_trans ih1 hrle,
                      min_zero_le_trans hrlow ih2,
                      ?_⟩
                    rw [ih3, hestudy]
                    have := hkey ((dayLoop today st d rest
                      (tAcc + dur) bEnd rem' (acc ++ [e])).2 n) ih1
                    linarith [this]

theorem daysGo_conserve (today : Int) (subjects : List Subject)
    (st : Settings) :
    ∀ (days : List Nat) (rem : String → ℚ) (n : String),
      (daysGo today subjects st days rem).2 n ≤ rem n ∧
        min (rem n) 0 ≤ (daysGo today subjects st days rem).2 n ∧
        studyMinutesFor n (daysGo today subjects st days rem).1 =
          60 * (rem n - (daysGo today subjects st days rem).2 n) := by
  intro days
  induction days with
  | nil =>
      intro rem n
      rw [daysGo]
      refine ⟨le_refl _, min_le_left _ _, ?_⟩
      rw [sub_self, mul_zero]
      rfl
  | cons day rest ih =>
      intro rem n
      rw [daysGo]
      split
      · exact ih _ _
      · dsimp only
        obtain ⟨d1, d2, d3⟩ := dayLoop_conserve today st
          (st.start_date + (day : Int)) subjects 0 st.start_minutes rem [] n
        obtain ⟨i1, i2, i3⟩ := ih (dayLoop today st (st.start_date + (day : Int))
          subjects 0 st.start_minutes rem []).2 n
        refine ⟨le_trans i1 d1, min_zero_le_trans d2 i2, ?_⟩
        rw [schedStudy_append, d3, i3]
        have hacc : studyMinutesFor n ([] : List Entry) = 0 := rfl
        rw [hacc]
        ring

end SchedAppLemmas

section ApiLemmas

open Api

theorem sessionGo_mem (study_date : Int) (name : String)
    (score difficulty sdh brk : ℚ) (stoday : Nat) :
    ∀ (l : List Nat) (ct hrem : ℚ) (e : Entry),
      e ∈ (sessionGo study_date name score difficulty sdh brk stoday l ct
        hrem).1 →
      (e.session_type = "Study" ∧ e.subject = name) ∨
        (e.session_type = "Break" ∧ e.subject = "Break") := by
  intro l
  induction l with
  | nil => intro ct hrem e he; cases he
  | cons session rest ih =>
      intro ct hrem e he
      rw [sessionGo] at he
      dsimp only at he
      split at he
      · cases he
      · split at he
        · rcases List.mem_cons.mp he with rfl | he2
          · exact Or.inl ⟨rfl, rfl⟩
          · rcases List.mem_cons.mp he2 with rfl | he3
            · exact Or.inr ⟨rfl, rfl⟩
            · exact ih _ _ e he3
        · rcases List.mem_cons.mp he with rfl | he2
          · exact Or.inl ⟨rfl, rfl⟩
          · exact ih _ _ e he2

theorem dayGo_mem (today : Int) (st : ScheduleSettings) (name : String)
    (score difficulty : ℚ) (da : Int) :
    ∀ (l : List Nat) (hrem : ℚ) (e : Entry),
      e ∈ (dayGo today st name score difficulty da l hrem).1 →
      (e.session_type = "Study" ∧ e.subject = name) ∨
        (e.session_type = "Break" ∧ e.subject = "Break") := by
  intro l
  induction l with
  | nil => intro hrem e he; cases he
  | cons day rest ih =>
      intro hrem e he
      rw [dayGo] at he
      dsimp only at he
      split at he
      · exact ih _ e he
      · have hp : ∀ (p : List Entry × ℚ),
            (∀ x ∈ p.1, (Entry.session_type x = "Study" ∧
              Entry.subject x = name) ∨ (Entry.session_type x = "Break" ∧
              Entry.subject x = "Break")) →
            e ∈ (if p.2 ≤ 0 then p
              else (p.1 ++ (dayGo today st name score difficulty da rest
                p.2).1, (dayGo today st name score difficulty da rest
                p.2).2)).1 →
            (e.session_type = "Study" ∧ e.subject = name) ∨
              (e.session_type = "Break" ∧ e.subject = "Break") := by
          intro p hall hmem
          split at hmem
          · exact hall e hmem
          · rcases List.mem_append.mp hmem with h1 | h2
            · exact hall e h1
            · exact ih _ e h2
        apply hp _ _ he
        intro x hx
        split at hx
        · exact sessionGo_mem _ _ _ _ _ _ _ _ _ _ x hx
        · cases hx

theorem subjGo_mem (today : Int) (st : ScheduleSettings) :
    ∀ (l : List (Subject × ℚ)) (e : Entry), e ∈ subjGo today st l →
      (∃ p ∈ l, 0 < (p.1.deadline - today) + 1 ∧
        e.session_type = "Study" ∧ e.subject = p.1.name) ∨
        (e.session_type = "Break" ∧ e.subject = "Break") := by
  intro l
  induction l with
  | nil => intro e he; cases he
  | cons q rest ih =>
      intro e he
      obtain ⟨subject, priority⟩ := q
      rw [subjGo] at he
      dsimp only at he
      split at he
      · rcases ih e he with ⟨p, hp, hrest⟩ | hb
        · exact Or.inl ⟨p, List.mem_cons_of_mem _ hp, hrest⟩
        · exact Or.inr hb
      · next hdays =>
          rcases List.mem_append.mp he with h1 | h2
          · rcases dayGo_mem today st subject.name priority
              subject.difficulty ((subject.deadline - today) + 1) _ _ e h1
              with hs | hb
            · exact Or.inl ⟨(subject, priority), List.mem_cons_self _ _,
                lt_of_not_ge hdays, hs.1, hs.2⟩
            · exact Or.inr hb
          · rcases ih e h2 with ⟨p, hp, hrest⟩ | hb
            · exact Or.inl ⟨p, List.mem_cons_of_mem _ hp, hrest⟩
            · exact Or.inr hb

set_option maxHeartbeats 1600000 in
theorem dayGoE_ok (today : Int) (raw : RawScheduleSettings) (name : String)
    (score difficulty : ℚ) (da : Int) (m : ℚ)
    (hp : parseHHMM raw.start_time = some m) :
    ∀ (l : List Nat) (hrem : ℚ),
      dayGoE today raw name score difficulty da l hrem =
        Except.ok (dayGo today
          ⟨raw.session_length, raw.break_length, raw.daily_hours, m,
            raw.include_weekends⟩ name score difficulty da l hrem) := by
  intro l
  induction l with
  | nil => intro hrem; rfl
  | cons off rest ih =>
      intro hrem
      rw [dayGoE, dayGo]
      dsimp only
      split
      · exact ih _
      · rw [hp]
        dsimp only
        rw [← apply_ite Except.ok]
        dsimp only
        split
        · split
          · rfl
          · rw [ih]
        · split
          · rfl
          · rw [ih]

set_option maxHeartbeats 1600000 in
theorem subjGoE_ok (today : Int) (raw : RawScheduleSettings) (m : ℚ)
    (hp : parseHHMM raw.start_time = some m)
    (hs : raw.session_length ≠ 0) :
    ∀ l : List (Subject × ℚ),
      subjGoE today raw l =
        Except.ok (subjGo today
          ⟨raw.session_length, raw.break_length, raw.daily_hours, m,
            raw.include_weekends⟩ l) := by
  intro l
  induction l with
  | nil => rfl
  | cons q rest ih =>
      obtain ⟨subject, priority⟩ := q
      rw [subjGoE, subjGo]
      dsimp only
      split
      · exact ih
      · have hd := dayGoE_ok today raw subject.name priority
          subject.difficulty ((subject.deadline - today) + 1) m hp
          (List.range ((subject.deadline - today) + 1).toNat)
          subject.hours_needed
        rw [hd, ih]

theorem generate_schedule_api_bad_start_time :
    Api.generate_schedule_api 0 [⟨"A", 3, 5, 5⟩] ⟨90, 15, 8, "xx", true⟩ =
      Except.error
        "Error generating schedule: time data does not match format" := by
  with_unfolding_all rfl

end ApiLemmas

/-- C4: for every subject and scoring date, the priority score of
src/app.py equals `0.4*urgency + 0.3*(difficulty/5) + 0.3*(importance/5)`
where urgency is `10.0` when `days_left = deadline - today ≤ 0` (however
negative) and `1/days_left` otherwise; the function is total, so no input
(past-due deadlines included) raises. -/
theorem c4_priority_score_formula (today deadline : Int)
    (difficulty importance : ℚ) :
    SrcApp.calculate_priority_score today deadline difficulty importance =
      0.4 * (if deadline - today ≤ 0 then (10 : ℚ)
             else 1 / ((deadline - today : Int) : ℚ))
        + 0.3 * (difficulty / 5) + 0.3 * (importance / 5) := by
  unfold SrcApp.calculate_priority_score
  dsimp only
  split <;> · norm_num; ring

/-- C2 counterexample: the daily allocator of src/app.py does not cap a
subject's allocation at its remaining `hours_needed`.  A subject needing
only 0.5 hours (30 minutes) receives the whole 6-hour daily budget
(360 minutes > 30 minutes). -/
theorem c2_counterexample :
    ((SrcApp.distribute_study_hours 0 [⟨"A", 10, 0.5, 3, 3, none⟩] 6).2
        = [("A", 6)]) ∧
      ¬((6 : ℚ) * 60 ≤ 0.5 * 60) := of_decide_eq_true (by with_unfolding_all rfl)

/-- C2 amended: the allocator never consults `study_hours` at all — a
single subject always receives the entire daily budget (for any budget of
at least the 0.5-hour clamp minimum), regardless of how many hours it
still needs, and a zero-need subject is neither skipped nor excluded. -/
theorem c2_single_subject_gets_full_budget (today : Int) (s : SrcApp.Subject)
    (T : ℚ) (h : (0.5 : ℚ) ≤ T) :
    (SrcApp.distribute_study_hours today [s] T).2 = [(s.name, T)] := by
  have hT : (0 : ℚ) < T := lt_of_lt_of_le (by norm_num) h
  simp only [SrcApp.distribute_study_hours, SrcApp.distLoop, SrcApp.dictSet,
    List.isEmpty_cons, List.isEmpty_nil, List.map_cons, List.map_nil,
    List.insertionSort, List.orderedInsert, Bool.false_eq_true, if_false,
    if_true, if_pos hT]
  rw [min_eq_left (by linarith), max_eq_right h]

theorem c2_single_subject_gets_full_budget_witness :
    ((0.5 : ℚ) ≤ 6) ∧
      (SrcApp.distribute_study_hours 0 [⟨"A", 10, 0.5, 3, 3, none⟩] 6).2
        = [("A", 6)] :=
  ⟨by norm_num,
    c2_single_subject_gets_full_budget 0 ⟨"A", 10, 0.5, 3, 3, none⟩ 6 (by norm_num)⟩

/-- C5 counterexample: the allocator's totals do not stay within the daily
budget.  With three equal-priority subjects and a 1-hour budget, each of
the three rounded 0.3-hour shares is clamped up to the 0.5-hour minimum,
so 1.5 hours (90 minutes) are allocated against a 1-hour (60-minute)
budget — the sum exceeds the budget rather than equalling it. -/
theorem c5_counterexample :
    (((SrcApp.distribute_study_hours 0 SrcApp.subsEq3 1).2.map Prod.snd).sum
        = 3/2) ∧
      ¬((3/2 : ℚ) ≤ 1) := of_decide_eq_true (by with_unfolding_all rfl)

/-- C5 amended: every allocation the daily allocator returns is
non-negative, but the total is not guaranteed to equal (or stay below)
the daily budget: the `max(0.5, ...)` clamp can push the total above the
budget and the running-remainder cap can leave it below. -/
theorem c5_alloc_nonneg (today : Int) (subjects : List SrcApp.Subject)
    (T : ℚ) :
    ∀ p ∈ (SrcApp.distribute_study_hours today subjects T).2, 0 ≤ p.2 := by
  simp only [SrcApp.distribute_study_hours]
  split
  · simp
  · exact distLoop_nonneg _ _ _ _ _ (by simp)

theorem c5_alloc_nonneg_witness :
    (("A", (6 : ℚ)) ∈
        (SrcApp.distribute_study_hours 0 [⟨"A", 10, 1, 3, 3, none⟩] 6).2) ∧
      (0 : ℚ) ≤ 6 :=
  ⟨of_decide_eq_true (by with_unfolding_all rfl),
    c5_alloc_nonneg 0 [⟨"A", 10, 1, 3, 3, none⟩] 6 ("A", 6)
      (of_decide_eq_true (by with_unfolding_all rfl))⟩

/-- C9 counterexample: `distribute_study_hours` mutates the caller's
subject records — after one call the subject dict has acquired a
`priority_score` key, so the list is no longer equal to the input. -/
theorem c9_counterexample :
    (SrcApp.distribute_study_hours 0 [⟨"A", 10, 1, 3, 3, none⟩] 6).1 ≠
      [⟨"A", 10, 1, 3, 3, none⟩] := of_decide_eq_true (by with_unfolding_all rfl)

/-- C9 amended: the only mutation the allocator performs on the caller's
subject records is writing the `priority_score` key (with the freshly
computed score); every other field is left intact. -/
theorem c9_only_priority_score_written (today : Int)
    (subjects : List SrcApp.Subject) (T : ℚ) :
    (SrcApp.distribute_study_hours today subjects T).1 =
      subjects.map fun s =>
        { s with
            priority_score := some (SrcApp.calculate_priority_score today
              s.deadline s.difficulty s.importance) } := by
  simp only [SrcApp.distribute_study_hours]
  split
  · next h => simp [List.isEmpty_iff.mp h]
  · rfl

/-- C1 counterexample: src/app.py computes the hour distribution once and
replays it on all 23 weekdays of the 31-day window without ever
decrementing remaining hours, so a subject needing 1 hour (60 minutes)
receives 1380 minutes of study blocks. -/
theorem c1_counterexample :
    (SrcApp.studyMinutesFor "A"
        (SrcApp.generate_schedule 0 [⟨"A", 10, 1, 3, 3, none⟩] 0 1 60 15 540)
      = 1380) ∧
      ¬((1380 : ℚ) ≤ 1 * 60) := of_decide_eq_true (by with_unfolding_all rfl)

/-- C1 amended: the remaining-hours bookkeeping the claim describes is
implemented only by the src/Schedulyze/app.py scheduler, and there it is
exact: for every subject name, the final remaining-hours value never goes
below zero (when the initial need is non-negative) and never grows, and
the total scheduled study minutes of that subject equal exactly
`60 * (initial remaining - final remaining)`.  In particular the total is
at most `hours_needed * 60`, with equality exactly when the subject ends
fully scheduled (final remaining = 0).  The src/app.py scheduler cited by
the claim performs no such bookkeeping and violates the bound (see the
counterexample). -/
theorem c1_remaining_hours_conserved (today : Int)
    (subjects : List SchedApp.Subject) (st : SchedApp.Settings)
    (n : String) :
    (SchedApp.generate_optimized_schedule_core today subjects st).2 n ≤
        SchedApp.initRemaining (SchedApp.prioritized today subjects) n ∧
      min (SchedApp.initRemaining (SchedApp.prioritized today subjects) n) 0 ≤
        (SchedApp.generate_optimized_schedule_core today subjects st).2 n ∧
      SchedApp.studyMinutesFor n
          (SchedApp.generate_optimized_schedule today subjects st) =
        60 * (SchedApp.initRemaining (SchedApp.prioritized today subjects) n -
          (SchedApp.generate_optimized_schedule_core today subjects st).2 n) :=
  daysGo_conserve today (SchedApp.prioritized today subjects) st
    (List.range 14) (SchedApp.initRemaining (SchedApp.prioritized today subjects)) n

/-- C7 counterexample: the horizon loop of src/app.py never stops early.
A lone subject needing 1 hour has its whole effort scheduled on day 0
(60 study minutes), yet day 1 still receives schedule entries. -/
theorem c7_counterexample :
    (SrcApp.studyMinutesFor "A"
        (SrcApp.entriesOn 0
          (SrcApp.generate_schedule 0 [⟨"A", 10, 1, 3, 3, none⟩] 0 1 60 15 540))
      = 60) ∧
      SrcApp.entriesOn 1
          (SrcApp.generate_schedule 0 [⟨"A", 10, 1, 3, 3, none⟩] 0 1 60 15 540)
        ≠ [] := of_decide_eq_true (by with_unfolding_all rfl)

/-- C3 counterexample: breaks are inserted only between blocks of the same
subject.  With two subjects of one hour each (45-minute sessions), the
day's entries are Study/Break/Study/Study/Break/Study: the third entry is
a Study block, it is not the last block of the day (the day has six
entries), and it is followed by another Study block, not a Break. -/
theorem c3_counterexample :
    ((SrcApp.create_daily_schedule 0 [("A", 1), ("B", 1)] 45 15 540).length
        = 6) ∧
      (((SrcApp.create_daily_schedule 0 [("A", 1), ("B", 1)] 45 15 540)[2]?).map
          SrcApp.Entry.type = some "Study") ∧
      (((SrcApp.create_daily_schedule 0 [("A", 1), ("B", 1)] 45 15 540)[3]?).map
          SrcApp.Entry.type = some "Study") := of_decide_eq_true (by with_unfolding_all rfl)

/-- C6 counterexample: a day's total scheduled minutes can exceed the
daily budget.  Three equal-priority subjects with a 1-hour (60-minute)
budget are each allocated 30 minutes, so the day carries 90 minutes of
blocks. -/
theorem c6_counterexample :
    (((SrcApp.create_daily_schedule 0
          (SrcApp.distribute_study_hours 0 SrcApp.subsEq3 1).2 45 15 540).map
        SrcApp.Entry.duration).sum = 90) ∧
      ¬((90 : ℚ) ≤ 1 * 60) := of_decide_eq_true (by with_unfolding_all rfl)

/-- C6 amended: within one day the emitted entries are contiguous from the
day's start time (each entry's `end_time` is its `start_time` plus its
`duration`, each later entry starts exactly where the previous one ends,
the first entry starts at `start_minutes`), hence they are non-overlapping
and ordered by `start_time`; the day total, however, is not bounded by the
daily budget (see the counterexample).  The `1 ≤ session_length` premise
is the domain on which the Python `while` loop terminates. -/
theorem c6_day_contiguous_ordered (date : Int) (dist : List (String × ℚ))
    (session_length break_length start_minutes : Nat)
    (h : 1 ≤ session_length) :
    (∀ e ∈ SrcApp.create_daily_schedule date dist session_length
        break_length start_minutes,
        e.end_time = e.start_time + e.duration) ∧
      List.Chain' (fun a b => b.start_time = a.end_time)
        (SrcApp.create_daily_schedule date dist session_length break_length
          start_minutes) ∧
      (∀ e ∈ (SrcApp.create_daily_schedule date dist session_length
          break_length start_minutes).head?,
        e.start_time = start_minutes) ∧
      List.Chain' (fun a b => a.start_time ≤ b.start_time)
        (SrcApp.create_daily_schedule date dist session_length break_length
          start_minutes) := by
  obtain ⟨fin, hc⟩ := create_daily_schedule_chainFrom date dist
    session_length break_length start_minutes
  exact ⟨fun e he => (chainFrom_blocks hc e he).1, chainFrom_chain hc,
    chainFrom_head hc, chainFrom_mono hc⟩

theorem c6_day_contiguous_ordered_witness :
    (1 ≤ 45) ∧
      ((∀ e ∈ SrcApp.create_daily_schedule 0 [("A", 1), ("B", 1)] 45 15 540,
          e.end_time = e.start_time + e.duration) ∧
        List.Chain' (fun a b => b.start_time = a.end_time)
          (SrcApp.create_daily_schedule 0 [("A", 1), ("B", 1)] 45 15 540) ∧
        (∀ e ∈ (SrcApp.create_daily_schedule 0 [("A", 1), ("B", 1)]
            45 15 540).head?,
          e.start_time = 540) ∧
        List.Chain' (fun a b => a.start_time ≤ b.start_time)
          (SrcApp.create_daily_schedule 0 [("A", 1), ("B", 1)] 45 15 540)) :=
  ⟨by norm_num,
    c6_day_contiguous_ordered 0 [("A", 1), ("B", 1)] 45 15 540 (by norm_num)⟩

/-- C3 amended: breaks separate consecutive study blocks of the *same*
subject only.  Within one subject's run of blocks (the inner `while` loop
of `_create_daily_schedule`, called with `fuel = total_minutes`), every
Study block except the run's last entry is immediately followed by a
Break block of exactly `break_length` starting where the study block
ends, and the running clock advances by each emitted block's duration;
across two different subjects no break is emitted (see the
counterexample).  The `1 ≤ session_length` premise is the domain on which
the Python `while` loop terminates. -/
theorem c3_break_after_each_nonfinal_study (date : Int) (subject : String)
    (session_length break_length current_time total_minutes : Nat)
    (h : 1 ≤ session_length) :
    List.Chain' (fun a b => a.type = "Study" →
        b.type = "Break" ∧ b.duration = break_length ∧
          b.start_time = a.end_time)
      (SrcApp.sliceGo date subject session_length break_length
        total_minutes current_time total_minutes).1 ∧
      (∀ e ∈ (SrcApp.sliceGo date subject session_length break_length
          total_minutes current_time total_minutes).1,
        e.end_time = e.start_time + e.duration) := by
  refine ⟨sliceGo_study_break_chain date subject session_length break_length
    total_minutes current_time total_minutes, fun e he => ?_⟩
  exact (chainFrom_blocks (sliceGo_chainFrom date subject session_length
    break_length total_minutes current_time total_minutes) e he).1

theorem c3_break_after_each_nonfinal_study_witness :
    (1 ≤ 45) ∧
      (List.Chain' (fun a b => a.type = "Study" →
          b.type = "Break" ∧ b.duration = 15 ∧
            b.start_time = a.end_time)
        (SrcApp.sliceGo 0 "A" 45 15 60 540 60).1 ∧
        (∀ e ∈ (SrcApp.sliceGo 0 "A" 45 15 60 540 60).1,
          e.end_time = e.start_time + e.duration)) :=
  ⟨by norm_num, c3_break_after_each_nonfinal_study 0 "A" 45 15 540 60 (by norm_num)⟩

/-- C7 amended: the horizon loop of src/app.py has no early-stop condition
at all: for every one of the 31 window days `start_date + k` (`k < 31`),
the schedule's entries on that day are exactly one more copy of the fixed
daily schedule when the day is a weekday and empty otherwise, regardless
of how much effort remains — remaining hours are never tracked, so
nothing stops once effort is exhausted, and nothing is reported as
overflow. -/
theorem c7_every_window_day_scheduled (today : Int)
    (subjects : List SrcApp.Subject) (start_date : Int) (daily_hours : ℚ)
    (session_length break_length start_minutes : Nat) (k : Nat)
    (hk : k < 31) :
    SrcApp.entriesOn (start_date + (k : Int))
        (SrcApp.generate_schedule today subjects start_date daily_hours
          session_length break_length start_minutes) =
      (if SrcApp.isWeekday (start_date + (k : Int)) then
        SrcApp.create_daily_schedule (start_date + (k : Int))
          (SrcApp.distribute_study_hours today subjects daily_hours).2
          session_length break_length start_minutes
      else []) := by
  have hf : ∀ j : Nat, ∀ e ∈ (if SrcApp.isWeekday (start_date + (j : Int)) then
      SrcApp.create_daily_schedule (start_date + (j : Int))
        (SrcApp.distribute_study_hours today subjects daily_hours).2
        session_length break_length start_minutes
    else []), e.date = start_date + (j : Int) := by
    intro j e he
    by_cases hw : SrcApp.isWeekday (start_date + (j : Int))
    · rw [if_pos hw] at he
      obtain ⟨fin, hc⟩ := create_daily_schedule_chainFrom (start_date + (j : Int))
        (SrcApp.distribute_study_hours today subjects daily_hours).2
        session_length break_length start_minutes
      exact (chainFrom_blocks hc e he).2
    · rw [if_neg hw] at he
      cases he
  exact entriesOn_flatten_map start_date _ hf (List.range 31)
    (List.nodup_range 31) k (List.mem_range.mpr hk)

/-- C8 counterexample: malformed input is not rejected at the entry point.
A subject with `hours_needed = -5` (non-positive, hence `InvalidSubject`
per the claim) is accepted by `/api/generate-schedule` — no error is
raised and scheduling proceeds, returning an (empty) schedule instead of
a rejection; the same call also accepts `session_length = 90` exceeding a
daily budget it never checks. -/
theorem c8_counterexample :
    Api.generate_schedule_api 0 [⟨"A", 3, -5, 5⟩] ⟨90, 15, 8, "09:00", true⟩ =
        Except.ok [] ∧
      ¬(0 < (-5 : ℚ)) :=
  ⟨by with_unfolding_all rfl, of_decide_eq_true (by with_unfolding_all rfl)⟩

/-- C8 amended: the entry point performs no validation of the request
beyond pydantic type checking — range-malformed values (non-positive
`hours_needed`, out-of-range `difficulty`, `session_length` exceeding the
daily budget) flow into the scheduler instead of being rejected first.
Whenever `session_length ≠ 0` and the `start_time` string parses as
`%H:%M`, every typed request is answered `200 Ok` with exactly the
scheduler's output at the parsed start time; exceptions that do arise
mid-computation — such as the division by zero at `session_length = 0`
(src/Schedulyze/api.py:97) or the `strptime` `ValueError` on an
unparseable `start_time` (line 118) — surface as an HTTP 400 from inside
the scheduling chain, not from up-front validation. -/
theorem c8_no_range_validation (today : Int) (subjects : List Api.Subject)
    (raw : Api.RawScheduleSettings) (m : ℚ)
    (hs : raw.session_length ≠ 0)
    (hp : Api.parseHHMM raw.start_time = some m) :
    Api.generate_schedule_api today subjects raw =
      Except.ok (Api.generate_optimized_schedule today subjects
        ⟨raw.session_length, raw.break_length, raw.daily_hours, m,
          raw.include_weekends⟩) := by
  rw [Api.generate_schedule_api, Api.generate_optimized_schedule]
  rw [subjGoE_ok today raw m hp hs]

set_option maxRecDepth 8192 in
theorem c8_no_range_validation_witness :
    ((⟨90, 15, 8, "09:00", true⟩ :
        Api.RawScheduleSettings).session_length ≠ 0) ∧
      Api.parseHHMM "09:00" = some 540 ∧
      Api.generate_schedule_api 0 [⟨"A", 3, -5, 5⟩]
          ⟨90, 15, 8, "09:00", true⟩ =
        Except.ok
          (Api.generate_optimized_schedule 0 [⟨"A", 3, -5, 5⟩]
            ⟨90, 15, 8, 540, true⟩) :=
  ⟨of_decide_eq_true (by with_unfolding_all rfl),
    of_decide_eq_true (by with_unfolding_all rfl),
    c8_no_range_validation 0 [⟨"A", 3, -5, 5⟩] ⟨90, 15, 8, "09:00", true⟩ 540
      (of_decide_eq_true (by with_unfolding_all rfl))
      (of_decide_eq_true (by with_unfolding_all rfl))⟩

/-- C10: in the tiered-scoring scheduler of src/Schedulyze/api.py, every
subject whose deadline is strictly before the scheduling day
(`days_available = (deadline - today) + 1 ≤ 0`) is silently skipped: no
entry of the returned schedule carries its name (for a name other than
the `"Break"` sentinel, provided every subject of that name is overdue) —
even though the tiered scorer gives an overdue subject the urgency bucket
100, the maximum over all buckets. -/
theorem c10_overdue_subjects_skipped (today : Int)
    (subjects : List Api.Subject) (st : Api.ScheduleSettings) (n : String)
    (hn : n ≠ "Break")
    (h : ∀ s ∈ subjects, s.name = n → s.deadline < today) :
    (∀ e ∈ Api.generate_optimized_schedule today subjects st,
        e.subject ≠ n) ∧
      (∀ d : Int, d ≤ 0 → Api.urgency_score d = 100) ∧
      (∀ d : Int, Api.urgency_score d ≤ 100) := by
  refine ⟨?_, ?_, ?_⟩
  · intro e he hcontra
    rw [Api.generate_optimized_schedule] at he
    have he2 := (List.mem_insertionSort _).mp he
    rcases subjGo_mem today st _ e he2 with ⟨p, hp, hdays, _hstudy, hname⟩ | hb
    · have hps := (List.mem_insertionSort _).mp hp
      obtain ⟨s, hs, rfl⟩ := List.mem_map.mp hps
      have hd := h s hs (by rw [← hname, hcontra])
      have hdays' : 0 < (s.deadline - today) + 1 := hdays
      omega
    · exact hn (hcontra ▸ hb.2)
  · intro d hd
    rw [Api.urgency_score, if_pos hd]
  · intro d
    rw [Api.urgency_score]
    split
    · exact le_refl _
    · split
      · norm_num
      · split
        · norm_num
        · split
          · norm_num
          · next h1 h2 h3 h4 =>
              have hd8 : (8 : ℚ) ≤ (d : ℚ) := by
                have : (8 : Int) ≤ d := by omega
                exact_mod_cast this
              refine max_le (by norm_num) (by linarith)

theorem c10_overdue_subjects_skipped_witness :
    (("Over" : String) ≠ "Break") ∧
      (∀ s ∈ [(⟨"Over", -1, 5, 5⟩ : Api.Subject), ⟨"Fresh", 2, 5, 5⟩],
        s.name = "Over" → s.deadline < 0) ∧
      ((∀ e ∈ Api.generate_optimized_schedule 0
            [⟨"Over", -1, 5, 5⟩, ⟨"Fresh", 2, 5, 5⟩] ⟨90, 15, 8, 540, true⟩,
          e.subject ≠ "Over") ∧
        (∀ d : Int, d ≤ 0 → Api.urgency_score d = 100) ∧
        (∀ d : Int, Api.urgency_score d ≤ 100)) :=
  ⟨of_decide_eq_true (by with_unfolding_all rfl),
    of_decide_eq_true (by with_unfolding_all rfl),
    c10_overdue_subjects_skipped 0 [⟨"Over", -1, 5, 5⟩, ⟨"Fresh", 2, 5, 5⟩]
      ⟨90, 15, 8, 540, true⟩ "Over"
      (of_decide_eq_true (by with_unfolding_all rfl))
      (of_decide_eq_true (by with_unfolding_all rfl))⟩

theorem c7_every_window_day_scheduled_witness :
    (1 < 31) ∧
      SrcApp.entriesOn ((0 : Int) + ((1 : Nat) : Int))
          (SrcApp.generate_schedule 0 [⟨"A", 10, 1, 3, 3, none⟩] 0 1 60 15 540) =
        (if SrcApp.isWeekday ((0 : Int) + ((1 : Nat) : Int)) then
          SrcApp.create_daily_schedule ((0 : Int) + ((1 : Nat) : Int))
            (SrcApp.distribute_study_hours 0 [⟨"A", 10, 1, 3, 3, none⟩] 1).2
            60 15 540
        else []) :=
  ⟨by norm_num,
    c7_every_window_day_scheduled 0 [⟨"A", 10, 1, 3, 3, none⟩] 0 1 60 15 540 1
      (by norm_num)⟩

end Schedulyze
